import Mathlib

/-!
# Verification of the yfinance-ts transport and streaming core

A shallow embedding, in Lean 4, of the retry/authentication transport layer
(`src/utils/http.ts`) and the streaming client (`src/core/websocket.ts`) of the
yfinance-ts repository, together with theorems settling the specification's
claims about them.

Modelling conventions:
* JavaScript strings are modelled as `List Char` where character-level parsing
  matters (cookie file serialization), and as `String` elsewhere.
* JavaScript numbers holding epoch seconds are modelled as `Nat`; `undefined`
  (and `NaN`, which the code collapses with `|| 0`) is modelled as `none`.
* Asynchronous network calls are abstracted into explicit outcome functions;
  a thrown exception is modelled as an `Except.error` / `Option.none` value.
* Timers and event emission are modelled as explicit data in the result of the
  step functions (a scheduled delay, a list of emitted events).
-/

namespace YfinTs

/-! ## Decimal number serialization and parsing

Models JavaScript template interpolation of a nonnegative integer
(decimal representation) and `parseInt` on the resulting text. -/

/-- The character for a decimal digit `d < 10` (JS number-to-string). -/
def digitChar (d : Nat) : Char := Char.ofNat (48 + d)

/-- Accumulator-based decimal rendering of a natural number.  The first
argument is fuel making the recursion structural; since the rendered number
shrinks by a factor of ten each step, fuel `n` is always enough for `n`. -/
def natToCharsAux : Nat → Nat → List Char → List Char
  | 0, _, acc => acc
  | fuel + 1, n, acc =>
    if n = 0 then acc
    else natToCharsAux fuel (n / 10) (digitChar (n % 10) :: acc)

/-- Decimal representation of a natural number, as JS renders a nonnegative
integer into a template string. -/
def natToChars (n : Nat) : List Char :=
  if n = 0 then ['0'] else natToCharsAux n n []

/-- A nonnegative JS number by its decimal rendering: an integer part and
the digits after the decimal point (empty for an integral value).  Cookie
expirations hold such numbers in epoch seconds; the `max-age` path of
`parseSetCookie` stores `Date.now() / 1000 + parseInt(val)`, a fractional
value, so a nonempty fractional part does arise. -/
structure JsNum where
  intPart : Nat
  frac : List Char
deriving DecidableEq, Repr

/-- The JS number `0`. -/
def jsZero : JsNum := { intPart := 0, frac := [] }

/-- Whether a JS number's value is zero (its falsiness as a present
number). -/
def jsNumIsZero (x : JsNum) : Bool :=
  x.intPart = 0 && x.frac.all fun c => c = '0'

/-- The comparison `x > now` of a JS number against an integral current
time: true when the integer part exceeds `now`, or equals it with a nonzero
fractional part. -/
def jsNumGtNat (x : JsNum) (now : Nat) : Bool :=
  now < x.intPart || (now = x.intPart && x.frac.any fun c => !(c = '0'))

/-- The JS expression `c.expiration || 0`: a falsy expiration (absent,
`NaN`, or value zero) is replaced by `0`. -/
def expirationOrZero (e : Option JsNum) : JsNum :=
  match e with
  | none => jsZero
  | some v => if jsNumIsZero v then jsZero else v

/-- Decimal text of a JS number, as template interpolation renders it:
the integer part, then a point and the fraction digits when present. -/
def jsNumToChars (x : JsNum) : List Char :=
  natToChars x.intPart ++ (if x.frac = [] then [] else '.' :: x.frac)

/-- The numeric value of a decimal digit character, `none` for non-digits. -/
def digitToNat (c : Char) : Option Nat :=
  if 48 ≤ c.toNat ∧ c.toNat ≤ 57 then some (c.toNat - 48) else none

/-- Left-to-right accumulation of decimal digits, stopping at the first
non-digit, as `parseInt` does after its initial character check. -/
def parseNatFrom (acc : Nat) : List Char → Nat
  | [] => acc
  | c :: cs =>
    match digitToNat c with
    | some d => parseNatFrom (acc * 10 + d) cs
    | none => acc

/-- Models JS `parseInt` on the strings this code ever feeds it (no sign, no
leading whitespace): `none` models the `NaN` result. -/
def parseIntChars (s : List Char) : Option Nat :=
  match s with
  | [] => none
  | c :: _ =>
    match digitToNat c with
    | none => none
    | some _ => some (parseNatFrom 0 s)

/-! ## Cookie store (`src/utils/http.ts`)

The in-memory cookie jar is a JS object keyed by domain, each entry a JS
object keyed by cookie name.  JS objects preserve insertion order and
overwrite on re-insertion, which the association-list operations below
reproduce. -/

/-- One stored cookie (the value shape kept under `cookieJar[domain][name]`).
The expiration is a JS number in epoch seconds — possibly fractional, see
`JsNum` — with `none` modelling both `undefined` and `NaN` (the code treats
them alike: falsy, and replaced by `0` on serialization). -/
structure StoredCookie where
  value : List Char
  path : List Char
  secure : Bool
  httpOnly : Bool
  expiration : Option JsNum
deriving DecidableEq, Repr

/-- The cookie jar: domain-keyed object of name-keyed cookie objects. -/
abbrev CookieJar := List (List Char × List (List Char × StoredCookie))

/-- Insert-or-overwrite for a name-keyed cookie object (JS object update:
an existing key keeps its position, a new key is appended). -/
def nameInsert (cs : List (List Char × StoredCookie)) (n : List Char)
    (c : StoredCookie) : List (List Char × StoredCookie) :=
  match cs with
  | [] => [(n, c)]
  | (n', c') :: rest =>
    if n' = n then (n', c) :: rest else (n', c') :: nameInsert rest n c

/-- Insert-or-overwrite for the domain-keyed jar object. -/
def jarInsert (jar : CookieJar) (d n : List Char) (c : StoredCookie) :
    CookieJar :=
  match jar with
  | [] => [(d, [(n, c)])]
  | (d', cs) :: rest =>
    if d' = d then (d', nameInsert cs n c) :: rest
    else (d', cs) :: jarInsert rest d n c

/-- Text `'TRUE'` / `'FALSE'` as written by `serializeCookies`. -/
def boolTF : Bool → List Char
  | true => ['T', 'R', 'U', 'E']
  | false => ['F', 'A', 'L', 'S', 'E']

/-- The leading comment line of the Netscape cookie file. -/
def headerLine : List Char := "# Netscape HTTP Cookie File".data

/-- One serialized cookie line:
`domain \t flag \t path \t secure \t expiration \t name \t value`,
with `flag` from `httpOnly`, and `c.expiration || 0` for the epoch. -/
def cookieLine (domain name : List Char) (c : StoredCookie) : List Char :=
  domain ++ '\t' :: boolTF c.httpOnly ++ '\t' :: c.path ++
    '\t' :: boolTF c.secure ++
    '\t' :: jsNumToChars (expirationOrZero c.expiration) ++
    '\t' :: name ++ '\t' :: c.value

/-- Function `serializeCookies` (http.ts:276): header line then one line per cookie,
each terminated by a newline, iterating the jar in insertion order. -/
def serializeCookies (jar : CookieJar) : List Char :=
  headerLine ++ '\n' ::
    jar.flatMap fun dc => dc.2.flatMap fun nc =>
      cookieLine dc.1 nc.1 nc.2 ++ ['\n']

/-- JS whitespace for the purposes of `line.trim()` on cookie-file lines. -/
def isWsChar (c : Char) : Bool :=
  c = ' ' || c = '\t' || c = '\n' || c = '\r'

/-- The test `line.startsWith('#')`. -/
def startsWithHash : List Char → Bool
  | c :: _ => c = '#'
  | [] => false

/-- The guard `line.trim() && !line.startsWith('#')` of `parseCookieFile`:
the line has some non-whitespace character and does not begin with `#`. -/
def lineKept (line : List Char) : Bool :=
  line.any (fun c => !isWsChar c) && !startsWithHash line

/-- Fold step of `parseCookieFile` over one line: split on tabs, require at
least seven fields, and store the cookie under `cookies[domain][name]`. -/
def parseLine (jar : CookieJar) (line : List Char) : CookieJar :=
  if lineKept line then
    let parts := line.splitOn '\t'
    if 7 ≤ parts.length then
      let domain := parts.getD 0 []
      let flag := parts.getD 1 []
      let path := parts.getD 2 []
      let secure := parts.getD 3 []
      let expiration := (parseIntChars (parts.getD 4 [])).map
        fun i => { intPart := i, frac := [] }
      let name := parts.getD 5 []
      let value := parts.getD 6 []
      jarInsert jar domain name
        { value := value, path := path,
          secure := secure = "TRUE".data,
          httpOnly := flag = "TRUE".data,
          expiration := expiration }
    else jar
  else jar

/-- Function `parseCookieFile` (http.ts:222): split the file on newlines and fold the
per-line parser over the lines. -/
def parseCookieFile (data : List Char) : CookieJar :=
  (data.splitOn '\n').foldl parseLine []

/-- The cookie produced by parsing a serialized cookie back: every field is
kept, except the expiration, which comes back as the integer part of
`c.expiration || 0` — an absent expiration was written as `0` and is read
back as the present expiration `0`, and a fractional expiration loses its
fraction to `parseInt`'s truncation. -/
def normalizeCookie (c : StoredCookie) : StoredCookie :=
  let e := expirationOrZero c.expiration
  { c with expiration := some (JsNum.mk e.intPart []) }

/-- Map `normalizeCookie` applied throughout a jar. -/
def normalizeJar (jar : CookieJar) : CookieJar :=
  jar.map fun dc => (dc.1, dc.2.map fun nc => (nc.1, normalizeCookie nc.2))

/-- The (domain, name, cookie) triples of a jar, in iteration order. -/
def jarEntries (jar : CookieJar) :
    List (List Char × List Char × StoredCookie) :=
  jar.flatMap fun dc => dc.2.map fun nc => (dc.1, nc.1, nc.2)

/-- A cookie-file field that survives the line/tab-separated format: it
contains no tab and no newline. -/
def goodField (s : List Char) : Prop := '\t' ∉ s ∧ '\n' ∉ s

instance goodFieldDecidable (s : List Char) : Decidable (goodField s) :=
  inferInstanceAs (Decidable (_ ∧ _))

/-- The JS falsiness test `!c.expiration`: true for an absent (or `NaN`)
expiration and for the expiration value `0`. -/
def expiryFalsy : Option JsNum → Bool
  | none => true
  | some v => jsNumIsZero v

/-- The expiry clause `(!c.expiration || c.expiration > now)` of
`getCookiesForUrl`, with the current time `now` in whole epoch seconds. -/
def expiryOk (e : Option JsNum) (now : Nat) : Bool :=
  expiryFalsy e ||
    (match e with
     | some v => jsNumGtNat v now
     | none => false)

/-- A stored expiration whose fractional digits are decimal digits — the
only fractional parts JS number rendering produces. -/
def expFracDigits (e : Option JsNum) : Prop :=
  match e with
  | none => True
  | some v => ∀ ch ∈ v.frac, (digitToNat ch).isSome

instance expFracDigitsDecidable (e : Option JsNum) :
    Decidable (expFracDigits e) :=
  match e with
  | none => isTrue trivial
  | some v =>
    inferInstanceAs (Decidable (∀ ch ∈ v.frac, (digitToNat ch).isSome))

/-- Function `getCookiesForUrl` (http.ts:293): for every jar domain matching the
request host exactly or as a dot-suffix, emit `name=value` for each cookie
that is not expired and whose path is a prefix of the request path. -/
def getCookiesForUrl (jar : CookieJar) (host path : List Char) (now : Nat) :
    List (List Char) :=
  jar.flatMap fun dc =>
    if host = dc.1 ∨ ('.' :: dc.1).isSuffixOf host then
      dc.2.filterMap fun nc =>
        if expiryOk nc.2.expiration now ∧ nc.2.path.isPrefixOf path then
          some (nc.1 ++ '=' :: nc.2.value)
        else none
    else []

/-! ## Transport retry loop (`makeRequest`, http.ts:512)

The network call itself is abstracted into `outcome : Nat → Except ReqError
Response`, giving the result of the i-th attempt (0-based).  The model keeps
the loop's observable trace: the final outcome, the number of attempts made,
and the list of backoff delays awaited. -/

/-- A raw HTTP response (the fields the claims depend on).  `dataRaw` is the
response body buffer, `none` when absent. -/
structure Response where
  status : Nat
  dataRaw : Option String
deriving DecidableEq, Repr

/-- A thrown request error: either a response with an HTTP error status
(`error.response.status`) or a network error with no response. -/
inductive ReqError where
  | http (status : Nat)
  | network
deriving DecidableEq, Repr

/-- Function `shouldRetry` (http.ts:482): network errors and status
`>= 500 || 429 || 408 || 503` are retryable. -/
def shouldRetry : ReqError → Bool
  | .network => true
  | .http s => decide (500 ≤ s) || decide (s = 429) || decide (s = 408)
      || decide (s = 503)

/-- Transport configuration (the retry-relevant part of `HttpClientConfig`). -/
structure TransportConfig where
  retries : Nat
  retryDelay : Nat
deriving DecidableEq, Repr

/-- Function `isYahooFinanceApiRequest` (http.ts:873): the host contains `yahoo.com`
and the path contains one of the authenticated API prefixes. -/
def isYahooFinanceApiRequest (host pathname : List Char) : Bool :=
  decide ("yahoo.com".data <:+: host) &&
    (decide ("/v7/finance/".data <:+: pathname) ||
     decide ("/v10/finance/".data <:+: pathname) ||
     decide ("/v1/finance/".data <:+: pathname) ||
     decide ("/ws/fundamentals/".data <:+: pathname))

/-- Final outcome of `makeRequest`: a returned response, a rethrown
underlying error, or the `Max retries exceeded` failure thrown after the
`while` loop. -/
inductive TransportOutcome where
  | success (r : Response)
  | failure (e : ReqError)
  | maxRetriesExceeded
deriving DecidableEq, Repr

/-- The `while (retries <= maxRetries)` loop body of `makeRequest`
(http.ts:524-610).  Cookie/crumb attachment is folded into `outcome`; the
auth-clearing retry branch is the first conditional, the `shouldRetry`
branch the second, and anything else rethrows the caught error.  Returns
(final outcome, attempts made, backoff delays awaited). -/
def makeRequestAux (cfg : TransportConfig) (isYahooApi : Bool)
    (outcome : Nat → Except ReqError Response) (retries : Nat) :
    TransportOutcome × Nat × List Nat :=
  if retries ≤ cfg.retries then
    match outcome retries with
    | .ok r => (.success r, retries + 1, [])
    | .error e =>
      if isYahooApi ∧ retries + 1 ≤ cfg.retries then
        let rest := makeRequestAux cfg isYahooApi outcome (retries + 1)
        (rest.1, rest.2.1, cfg.retryDelay * (retries + 1) :: rest.2.2)
      else if retries + 1 ≤ cfg.retries ∧ shouldRetry e then
        let rest := makeRequestAux cfg isYahooApi outcome (retries + 1)
        (rest.1, rest.2.1, cfg.retryDelay * (retries + 1) :: rest.2.2)
      else
        (.failure e, retries + 1, [])
  else
    (.maxRetriesExceeded, retries, [])
termination_by cfg.retries + 1 - retries

/-- Function `makeRequest` (http.ts:512): run the retry loop from `retries = 0`,
classifying the target URL by `isYahooFinanceApiRequest`. -/
def makeRequest (cfg : TransportConfig) (host pathname : List Char)
    (outcome : Nat → Except ReqError Response) :
    TransportOutcome × Nat × List Nat :=
  makeRequestAux cfg (isYahooFinanceApiRequest host pathname) outcome 0

/-! ## Body decoding (`getText` / `getJson`, http.ts:616-628) -/

/-- The decode failure thrown by `JSON.parse` on a malformed body
(`SyntaxError`, the spec's `DecodeError`). -/
inductive JsonFailure where
  | decodeError
deriving DecidableEq, Repr

/-- Function `getText` (http.ts:616): the response body buffer decoded as text,
`String(response.dataRaw || '')` when absent. -/
def getText (r : Response) : String :=
  match r.dataRaw with
  | some s => s
  | none => ""

/-- Function `getJson` (http.ts:625): `JSON.parse` over `getText`.  The platform
parser is abstracted as `parse`, returning `none` exactly when `JSON.parse`
would throw; that throw surfaces as the decode failure. -/
def getJson {α : Type} (parse : String → Option α) (r : Response) :
    Except JsonFailure α :=
  match parse (getText r) with
  | some v => .ok v
  | none => .error .decodeError

/-! ## Authentication engine (`getCrumb` / `_getCookieAndCrumb`,
http.ts:687-867)

The two strategy bodies (`_getCookieAndCrumbBasic`, `_getCrumbCsrf`) perform
network traffic and catch all of their own exceptions, returning `null` on
failure; they are abstracted as a state-transforming oracle
`run : CookieStrategy → AuthState → Option String × AuthState`. -/

/-- The two cookie strategies. -/
inductive CookieStrategy where
  | basic
  | csrf
deriving DecidableEq, Repr

/-- The strategy switched to when the active one fails. -/
def otherStrategy : CookieStrategy → CookieStrategy
  | .basic => .csrf
  | .csrf => .basic

/-- The authentication-relevant mutable state of `HttpClient`: the cached
crumb, the sticky strategy, and the cookie jar (content abstracted to the
entries cleared by `clearCookies`). -/
structure AuthState where
  crumb : Option String
  cookieStrategy : CookieStrategy
  cookieJar : CookieJar
deriving DecidableEq, Repr

/-- Method `_setCookieStrategy` (http.ts:858): no-op when already active, otherwise
set the strategy, null the crumb, and clear the cookie jar. -/
def _setCookieStrategy (strategy : CookieStrategy) (st : AuthState) :
    AuthState :=
  if strategy = st.cookieStrategy then st
  else { st with cookieStrategy := strategy, crumb := none, cookieJar := [] }

/-- Method `_getCookieAndCrumb` (http.ts:794): run the active strategy; on a `null`
crumb, switch to the other strategy and run it once.  Returns the crumb, the
strategy that produced it, the final state, and the strategies attempted in
order. -/
def _getCookieAndCrumb
    (run : CookieStrategy → AuthState → Option String × AuthState)
    (st : AuthState) :
    (Option String × CookieStrategy) × AuthState × List CookieStrategy :=
  match st.cookieStrategy with
  | .csrf =>
    let r := run .csrf st
    match r.1 with
    | some c => ((some c, .csrf), r.2, [.csrf])
    | none =>
      let st2 := _setCookieStrategy .basic r.2
      let r2 := run .basic st2
      ((r2.1, .basic), r2.2, [.csrf, .basic])
  | .basic =>
    let r := run .basic st
    match r.1 with
    | some c => ((some c, .basic), r.2, [.basic])
    | none =>
      let st2 := _setCookieStrategy .csrf r.2
      let r2 := run .csrf st2
      ((r2.1, .csrf), r2.2, [.basic, .csrf])

/-- JS truthiness of the cached crumb (`if (this.crumb)`): non-null and
non-empty. -/
def crumbTruthy : Option String → Bool
  | none => false
  | some c => !(c = "")

/-- Method `getCrumb` (http.ts:687): return a truthy cached crumb unchanged;
otherwise run `_getCookieAndCrumb`, store its crumb and strategy, and return
the crumb, or the empty string when it is absent.  All failure paths are
caught internally, so the function is total (never raises). -/
def getCrumb (run : CookieStrategy → AuthState → Option String × AuthState)
    (st : AuthState) : String × AuthState × List CookieStrategy :=
  if crumbTruthy st.crumb then (st.crumb.getD "", st, [])
  else
    let r := _getCookieAndCrumb run st
    let st2 := { r.2.1 with crumb := r.1.1, cookieStrategy := r.1.2 }
    if crumbTruthy r.1.1 then (r.1.1.getD "", st2, r.2.2)
    else ("", st2, r.2.2)

/-! ## Streaming client (`src/core/websocket.ts`) -/

/-- The reconnect/heartbeat options of `YahooWebSocket`. -/
structure WebSocketOptions where
  autoReconnect : Bool
  reconnectInterval : Nat
  maxReconnectAttempts : Nat
  heartbeatInterval : Nat
deriving DecidableEq, Repr

/-- The mutable state of `YahooWebSocket` relevant to the claims. -/
structure WsState where
  isConnected : Bool
  reconnectAttempts : Nat
  subscribedSymbols : List String
  reconnectTimerSet : Bool
deriving DecidableEq, Repr

/-- The `LivePriceData` record built by `_handleMessage` (the receipt
timestamp `new Date()` is outside the model). -/
structure LivePriceData where
  id : Option String
  price : Int
  change : Int
  changePercent : Int
  volume : Option Int
  marketCap : Option Int
deriving DecidableEq, Repr

/-- Events emitted by the streaming client (the subset the claims touch). -/
inductive WsEvent where
  | price (d : LivePriceData)
  | error (msg : String)
deriving DecidableEq, Repr

/-- A decoded inbound frame; every field may be absent. -/
structure InboundFrame where
  symbol : Option String
  price : Option Int
  change : Option Int
  changePercent : Option Int
  volume : Option Int
  marketCap : Option Int
  error : Option String
deriving DecidableEq, Repr

/-- JS truthiness for a numeric field (`if (message.price)`). -/
def numTruthy : Option Int → Bool
  | none => false
  | some v => !(v = 0)

/-- JS truthiness for a string field (`else if (message.error)`). -/
def strTruthy : Option String → Bool
  | none => false
  | some s => !(s = "")

/-- Method `_handleMessage` (websocket.ts:211): a frame is `none` when `JSON.parse`
threw — that exception is caught and only logged.  A truthy `price` field
emits a price event with `|| 0` defaults, else a truthy `error` field emits
an error event, else nothing.  The subscription set is never touched. -/
def _handleMessage (s : WsState) (frame : Option InboundFrame) :
    WsState × List WsEvent :=
  match frame with
  | none => (s, [])
  | some m =>
    if numTruthy m.price then
      (s, [.price
        { id := m.symbol, price := m.price.getD 0,
          change := m.change.getD 0,
          changePercent := m.changePercent.getD 0,
          volume := m.volume, marketCap := m.marketCap }])
    else if strTruthy m.error then
      (s, [.error (m.error.getD "")])
    else (s, [])

/-- Result of `_scheduleReconnect`: the updated state, the events emitted,
and the delay of the scheduled timer (`none` when no timer was set). -/
structure ScheduleResult where
  state : WsState
  events : List WsEvent
  scheduledDelay : Option Nat
deriving DecidableEq, Repr

/-- Method `_scheduleReconnect` (websocket.ts:258): at or above the attempt cap,
emit an error event and return without scheduling; otherwise increment the
counter and schedule a timer after `reconnectInterval * attempts`. -/
def _scheduleReconnect (opts : WebSocketOptions) (s : WsState) :
    ScheduleResult :=
  if opts.maxReconnectAttempts ≤ s.reconnectAttempts then
    { state := s, events := [.error "Max reconnect attempts reached"],
      scheduledDelay := none }
  else
    let attempts := s.reconnectAttempts + 1
    let s2 := { s with reconnectAttempts := attempts, reconnectTimerSet := true }
    { state := s2, events := [],
      scheduledDelay := some (opts.reconnectInterval * attempts) }

/-- The control frames sent over the socket by subscribe/unsubscribe. -/
inductive WsControlMsg where
  | subscribeMsg (symbols : List String)
  | unsubscribeMsg (symbols : List String)
deriving DecidableEq, Repr

/-- The `YFinanceError('WebSocket not connected')` condition. -/
inductive WsError where
  | notConnected
deriving DecidableEq, Repr

/-- The per-symbol loop of `subscribe` (websocket.ts:148-160): skip symbols
already in the set, otherwise send one subscribe message and add the symbol
(JS `Set` keeps insertion order). -/
def subscribeLoop (s : WsState) (msgs : List WsControlMsg) :
    List String → WsState × List WsControlMsg
  | [] => (s, msgs)
  | sym :: rest =>
    if sym ∈ s.subscribedSymbols then subscribeLoop s msgs rest
    else
      subscribeLoop
        { s with subscribedSymbols := s.subscribedSymbols ++ [sym] }
        (msgs ++ [.subscribeMsg [sym]]) rest

/-- Method `subscribe` (websocket.ts:141): throw when not connected, otherwise run
the per-symbol loop.  Returns the new state and the messages sent. -/
def subscribe (s : WsState) (symbols : List String) :
    Except WsError (WsState × List WsControlMsg) :=
  if !s.isConnected then .error .notConnected
  else .ok (subscribeLoop s [] symbols)

/-- Method `getSubscribedSymbols` (websocket.ts:191): `Array.from` of the set, in
insertion order. -/
def getSubscribedSymbols (s : WsState) : List String :=
  s.subscribedSymbols

/-! ## Helper lemmas: decimal round trip -/

/-- Rendering zero consumes no fuel and adds no digits. -/
theorem natToCharsAux_zero (fuel : Nat) :
    ∀ acc, natToCharsAux fuel 0 acc = acc := by
  cases fuel <;> intro acc <;> simp [natToCharsAux]

/-- The accumulator of `natToCharsAux` is appended to the rendered digits. -/
theorem natToCharsAux_append (fuel : Nat) :
    ∀ n acc, natToCharsAux fuel n acc = natToCharsAux fuel n [] ++ acc := by
  induction fuel with
  | zero => intro n acc; rfl
  | succ fuel ih =>
    intro n acc
    by_cases h : n = 0
    · simp [natToCharsAux, h]
    · simp only [natToCharsAux, h, if_false]
      rw [ih (n / 10) (digitChar (n % 10) :: acc),
        ih (n / 10) [digitChar (n % 10)]]
      simp

/-- Function `natToCharsAux` renders a nonzero number with nonzero fuel to
a nonempty digit string. -/
theorem natToCharsAux_ne_nil (fuel n : Nat) (hf : fuel ≠ 0) (h : n ≠ 0) :
    natToCharsAux fuel n [] ≠ [] := by
  cases fuel with
  | zero => exact absurd rfl hf
  | succ fuel =>
    simp only [natToCharsAux, h, if_false]
    rw [natToCharsAux_append]
    simp

/-- Every character rendered by `natToCharsAux` is a decimal digit. -/
theorem natToCharsAux_chars (fuel : Nat) :
    ∀ n, ∀ c ∈ natToCharsAux fuel n [], ∃ d, d < 10 ∧ c = digitChar d := by
  induction fuel with
  | zero => intro n c hc; simp [natToCharsAux] at hc
  | succ fuel ih =>
    intro n c hc
    by_cases h : n = 0
    · simp [natToCharsAux, h] at hc
    · simp only [natToCharsAux, h, if_false] at hc
      rw [natToCharsAux_append] at hc
      rcases List.mem_append.1 hc with h1 | h2
      · exact ih (n / 10) c h1
      · simp at h2
        exact ⟨n % 10, Nat.mod_lt _ (by omega), h2⟩

/-- Every character of `natToChars n` is a decimal digit. -/
theorem natToChars_chars (n : Nat) :
    ∀ c ∈ natToChars n, ∃ d, d < 10 ∧ c = digitChar d := by
  intro c hc
  unfold natToChars at hc
  by_cases h : n = 0
  · simp [h] at hc
    exact ⟨0, by omega, hc⟩
  · simp [h] at hc
    exact natToCharsAux_chars n n c hc

/-- Function `natToChars` never renders an empty string. -/
theorem natToChars_ne_nil (n : Nat) : natToChars n ≠ [] := by
  rw [natToChars]
  by_cases h : n = 0
  · simp [h]
  · simp only [h, if_false]
    exact natToCharsAux_ne_nil n n h h

/-- Decoding the character of a digit below ten. -/
theorem digitToNat_digitChar (d : Nat) (h : d < 10) :
    digitToNat (digitChar d) = some d := by
  interval_cases d <;> decide

/-- Digit characters are not tabs. -/
theorem digitChar_ne_tab (d : Nat) (h : d < 10) : digitChar d ≠ '\t' := by
  interval_cases d <;> decide

/-- Digit characters are not newlines. -/
theorem digitChar_ne_newline (d : Nat) (h : d < 10) : digitChar d ≠ '\n' := by
  interval_cases d <;> decide

/-- The `natToChars` output is a valid tab/newline-free field. -/
theorem natToChars_goodField (n : Nat) : goodField (natToChars n) := by
  constructor
  · intro hmem
    obtain ⟨d, hd, hc⟩ := natToChars_chars n _ hmem
    exact digitChar_ne_tab d hd hc.symm
  · intro hmem
    obtain ⟨d, hd, hc⟩ := natToChars_chars n _ hmem
    exact digitChar_ne_newline d hd hc.symm

/-- A string of decimal digit characters is tab/newline-free. -/
theorem goodField_of_digits (s : List Char)
    (h : ∀ ch ∈ s, (digitToNat ch).isSome) : goodField s := by
  constructor
  · intro hmem
    exact absurd (h '\t' hmem) (by decide)
  · intro hmem
    exact absurd (h '\n' hmem) (by decide)

/-- The rendering of a JS number with digit fraction is tab/newline-free. -/
theorem jsNumToChars_goodField (x : JsNum)
    (hfrac : ∀ ch ∈ x.frac, (digitToNat ch).isSome) :
    goodField (jsNumToChars x) := by
  have h1 := natToChars_goodField x.intPart
  have h2 := goodField_of_digits x.frac hfrac
  constructor
  · intro hmem
    rw [jsNumToChars] at hmem
    rcases List.mem_append.1 hmem with hm | hm
    · exact h1.1 hm
    · by_cases h : x.frac = []
      · simp [h] at hm
      · simp only [h, if_false, List.mem_cons] at hm
        rcases hm with hm | hm
        · exact absurd hm (by decide)
        · exact h2.1 hm
  · intro hmem
    rw [jsNumToChars] at hmem
    rcases List.mem_append.1 hmem with hm | hm
    · exact h1.2 hm
    · by_cases h : x.frac = []
      · simp [h] at hm
      · simp only [h, if_false, List.mem_cons] at hm
        rcases hm with hm | hm
        · exact absurd hm (by decide)
        · exact h2.2 hm

/-- After the `|| 0` replacement, the expiration's fraction digits are
still digits. -/
theorem expirationOrZero_fracDigits (e : Option JsNum)
    (h : expFracDigits e) :
    ∀ ch ∈ (expirationOrZero e).frac, (digitToNat ch).isSome := by
  cases e with
  | none =>
    intro ch hch
    simp [expirationOrZero, jsZero] at hch
  | some v =>
    intro ch hch
    simp only [expirationOrZero] at hch
    by_cases hz : jsNumIsZero v
    · simp [hz, jsZero] at hch
    · simp only [hz, if_false] at hch
      exact h ch hch

/-- Appending one digit multiplies the accumulated value by ten. -/
theorem parseNatFrom_append_digit (xs : List Char) (c : Char) (d : Nat)
    (hxs : ∀ x ∈ xs, ∃ e, e < 10 ∧ x = digitChar e)
    (hc : digitToNat c = some d) :
    ∀ m, parseNatFrom m (xs ++ [c]) = parseNatFrom m xs * 10 + d := by
  induction xs with
  | nil =>
    intro m
    simp [parseNatFrom, hc]
  | cons x xs ih =>
    intro m
    obtain ⟨e, he, hx⟩ := hxs x (List.mem_cons_self x xs)
    subst hx
    simp only [List.cons_append, parseNatFrom, digitToNat_digitChar e he]
    exact ih (fun y hy => hxs y (List.mem_cons_of_mem _ hy)) (m * 10 + e)

/-- Parsing back the digits of a nonzero number with enough fuel recovers
it. -/
theorem parseNatFrom_natToCharsAux (fuel : Nat) :
    ∀ n, n ≠ 0 → n ≤ fuel → parseNatFrom 0 (natToCharsAux fuel n []) = n := by
  induction fuel with
  | zero => intro n h hle; omega
  | succ fuel ih =>
    intro n h hle
    simp only [natToCharsAux, h, if_false]
    by_cases h2 : n / 10 = 0
    · have hlt : n < 10 := by omega
      rw [h2, natToCharsAux_zero]
      have h3 : n % 10 = n := Nat.mod_eq_of_lt hlt
      simp [parseNatFrom, h3, digitToNat_digitChar n hlt]
    · rw [natToCharsAux_append]
      rw [parseNatFrom_append_digit _ _ (n % 10)
        (natToCharsAux_chars fuel (n / 10))
        (digitToNat_digitChar (n % 10) (Nat.mod_lt _ (by omega)))]
      rw [ih (n / 10) h2 (by omega)]
      omega

/-- Parsing the full rendering of a natural number recovers it. -/
theorem parseNatFrom_natToChars (n : Nat) :
    parseNatFrom 0 (natToChars n) = n := by
  by_cases h : n = 0
  · subst h
    decide
  · rw [natToChars]
    simp only [h, if_false]
    exact parseNatFrom_natToCharsAux n n h le_rfl

/-- The digit accumulation stops at appended non-digit text — `parseInt`
ignores everything from the first non-digit character on. -/
theorem parseNatFrom_stop (xs rest : List Char)
    (hxs : ∀ x ∈ xs, ∃ e, e < 10 ∧ x = digitChar e)
    (hstop : ∀ c r2, rest = c :: r2 → digitToNat c = none) :
    ∀ m, parseNatFrom m (xs ++ rest) = parseNatFrom m xs := by
  induction xs with
  | nil =>
    intro m
    cases rest with
    | nil => rfl
    | cons c r2 => simp [parseNatFrom, hstop c r2 rfl]
  | cons x xs ih =>
    intro m
    obtain ⟨e, he, hx⟩ := hxs x (List.mem_cons_self x xs)
    subst hx
    simp only [List.cons_append, parseNatFrom, digitToNat_digitChar e he]
    exact ih (fun y hy => hxs y (List.mem_cons_of_mem _ hy)) _

/-- Function `parseIntChars` reads the rendered integer back from text that
continues with a non-digit (such as a decimal point) or ends. -/
theorem parseIntChars_natToChars_append (n : Nat) (rest : List Char)
    (hstop : ∀ c r2, rest = c :: r2 → digitToNat c = none) :
    parseIntChars (natToChars n ++ rest) = some n := by
  cases hD : natToChars n with
  | nil => exact absurd hD (natToChars_ne_nil n)
  | cons c cs =>
    have hc : ∃ d, d < 10 ∧ c = digitChar d := by
      apply natToChars_chars n
      rw [hD]
      exact List.mem_cons_self c cs
    obtain ⟨d, hd, rfl⟩ := hc
    simp only [List.cons_append, parseIntChars, digitToNat_digitChar d hd]
    rw [show digitChar d :: (cs ++ rest) = (digitChar d :: cs) ++ rest from
      rfl, ← hD]
    rw [parseNatFrom_stop (natToChars n) rest (natToChars_chars n) hstop]
    rw [parseNatFrom_natToChars]

/-- Function `parseIntChars` is a left inverse of `natToChars`. -/
theorem parseIntChars_natToChars (n : Nat) :
    parseIntChars (natToChars n) = some n := by
  have h := parseIntChars_natToChars_append n []
    (fun c r2 hc => by cases hc)
  simpa using h

/-- On the rendering of a JS number, `parseIntChars` recovers exactly the
integer part: the fractional part is truncated at the decimal point. -/
theorem parseIntChars_jsNumToChars (x : JsNum) :
    parseIntChars (jsNumToChars x) = some x.intPart := by
  rw [jsNumToChars]
  by_cases h : x.frac = []
  · simp [h, parseIntChars_natToChars]
  · simp only [h, if_false]
    apply parseIntChars_natToChars_append
    intro c r2 hc
    injection hc with h1 h2
    subst h1
    decide

/-! ## Helper lemmas: splitting serialized lines -/

/-- Function `splitOn` peels off a separator-free prefix before a separator. -/
theorem splitOn_append_cons (c : Char) (xs rest : List Char) (h : c ∉ xs) :
    (xs ++ c :: rest).splitOn c = xs :: rest.splitOn c := by
  simp only [List.splitOn]
  apply List.splitOnP_first
  · intro x hx
    simp only [beq_iff_eq]
    intro he
    exact h (he ▸ hx)
  · simp

/-- Function `splitOn` leaves a separator-free list whole. -/
theorem splitOn_no_sep (c : Char) (xs : List Char) (h : c ∉ xs) :
    xs.splitOn c = [xs] := by
  simp only [List.splitOn]
  apply List.splitOnP_eq_single
  intro x hx
  simp only [beq_iff_eq]
  intro he
  exact h (he ▸ hx)

/-- Function `boolTF` never contains a tab or newline. -/
theorem boolTF_goodField (b : Bool) : goodField (boolTF b) := by
  cases b <;> constructor <;> decide

/-- A serialized cookie line decomposed into right-nested segments. -/
theorem cookieLine_shape (d n : List Char) (c : StoredCookie) :
    cookieLine d n c =
      d ++ '\t' :: (boolTF c.httpOnly ++ '\t' :: (c.path ++ '\t' ::
        (boolTF c.secure ++ '\t' ::
          (jsNumToChars (expirationOrZero c.expiration) ++
          '\t' :: (n ++ '\t' :: c.value))))) := by
  simp [cookieLine]

/-- A serialized cookie line with tab/newline-free fields contains no
newline. -/
theorem cookieLine_no_newline (d n : List Char) (c : StoredCookie)
    (hd : goodField d) (hp : goodField c.path) (hn : goodField n)
    (hv : goodField c.value) (hexp : expFracDigits c.expiration) :
    '\n' ∉ cookieLine d n c := by
  intro hmem
  have h1 := (boolTF_goodField c.httpOnly).2
  have h2 := (boolTF_goodField c.secure).2
  have h3 := (jsNumToChars_goodField (expirationOrZero c.expiration)
    (expirationOrZero_fracDigits c.expiration hexp)).2
  rw [cookieLine_shape] at hmem
  simp [List.mem_append, List.mem_cons, hd.2, hp.2, hn.2, hv.2, h1, h2, h3,
    show ('\n' : Char) ≠ '\t' from by decide] at hmem

/-- Splitting a serialized cookie line on tabs recovers the seven fields. -/
theorem splitOn_cookieLine (d n : List Char) (c : StoredCookie)
    (hd : goodField d) (hp : goodField c.path) (hn : goodField n)
    (hv : goodField c.value) (hexp : expFracDigits c.expiration) :
    (cookieLine d n c).splitOn '\t' =
      [d, boolTF c.httpOnly, c.path, boolTF c.secure,
       jsNumToChars (expirationOrZero c.expiration), n, c.value] := by
  rw [cookieLine_shape, splitOn_append_cons _ _ _ hd.1,
    splitOn_append_cons _ _ _ (boolTF_goodField c.httpOnly).1,
    splitOn_append_cons _ _ _ hp.1,
    splitOn_append_cons _ _ _ (boolTF_goodField c.secure).1,
    splitOn_append_cons _ _ _ (jsNumToChars_goodField _
      (expirationOrZero_fracDigits c.expiration hexp)).1,
    splitOn_append_cons _ _ _ hn.1,
    splitOn_no_sep _ _ hv.1]

/-- A serialized cookie line passes the keep-guard of the parser whenever
its domain does not start with `#`. -/
theorem lineKept_cookieLine (d n : List Char) (c : StoredCookie)
    (hhash : startsWithHash d = false) :
    lineKept (cookieLine d n c) = true := by
  unfold lineKept
  rw [Bool.and_eq_true]
  constructor
  · rw [List.any_eq_true]
    cases hb : c.httpOnly
    · refine ⟨'F', ?_, by decide⟩
      rw [cookieLine_shape]
      simp [hb, boolTF]
    · refine ⟨'T', ?_, by decide⟩
      rw [cookieLine_shape]
      simp [hb, boolTF]
  · rw [Bool.not_eq_true']
    rw [cookieLine_shape]
    cases d with
    | nil => rfl
    | cons h t =>
      have hne : h ≠ '#' := by
        intro he
        rw [he] at hhash
        simp [startsWithHash] at hhash
      simp [startsWithHash, hne]

/-- Reading back the serialized secure/httpOnly flag. -/
theorem decide_boolTF_TRUE (b : Bool) :
    decide (boolTF b = ['T', 'R', 'U', 'E']) = b := by
  cases b <;> decide

/-- Parsing a serialized cookie line inserts the cookie back, with the
expiration replaced by the integer part of `c.expiration || 0` (an absent
expiration becomes `0`, a fractional one is truncated by `parseInt`). -/
theorem parseLine_cookieLine (jar : CookieJar) (d n : List Char)
    (c : StoredCookie) (hd : goodField d) (hp : goodField c.path)
    (hn : goodField n) (hv : goodField c.value)
    (hexp : expFracDigits c.expiration)
    (hhash : startsWithHash d = false) :
    parseLine jar (cookieLine d n c) =
      jarInsert jar d n (normalizeCookie c) := by
  have hkept := lineKept_cookieLine d n c hhash
  have hsplit := splitOn_cookieLine d n c hd hp hn hv hexp
  unfold parseLine
  rw [hkept]
  simp only [if_true, hsplit]
  simp [parseIntChars_jsNumToChars, normalizeCookie, decide_boolTF_TRUE,
    String.data]

/-- The parser ignores the header line. -/
theorem parseLine_headerLine (jar : CookieJar) :
    parseLine jar headerLine = jar := by
  unfold parseLine
  rw [show lineKept headerLine = false from by decide]
  rfl

/-- The parser ignores the trailing empty line. -/
theorem parseLine_nil (jar : CookieJar) : parseLine jar [] = jar := rfl

/-! ## Helper lemmas: rebuilding the jar from its entries -/

/-- Inserting under a domain not yet present appends it. -/
theorem jarInsert_fresh (acc : CookieJar) (d n : List Char)
    (c : StoredCookie) (h : ∀ dc ∈ acc, dc.1 ≠ d) :
    jarInsert acc d n c = acc ++ [(d, [(n, c)])] := by
  induction acc with
  | nil => rfl
  | cons dc rest ih =>
    obtain ⟨d', cs⟩ := dc
    have h1 : d' ≠ d := h (d', cs) (List.mem_cons_self _ _)
    simp only [jarInsert, h1, if_false, List.cons_append, List.cons.injEq,
      true_and]
    exact ih fun dc hdc => h dc (List.mem_cons_of_mem _ hdc)

/-- Inserting under the last domain updates it in place. -/
theorem jarInsert_last (acc : CookieJar) (d n : List Char)
    (ps : List (List Char × StoredCookie)) (c : StoredCookie)
    (h : ∀ dc ∈ acc, dc.1 ≠ d) :
    jarInsert (acc ++ [(d, ps)]) d n c = acc ++ [(d, nameInsert ps n c)] := by
  induction acc with
  | nil => simp [jarInsert]
  | cons dc rest ih =>
    obtain ⟨d', cs⟩ := dc
    have h1 : d' ≠ d := h (d', cs) (List.mem_cons_self _ _)
    simp only [List.cons_append, jarInsert, h1, if_false, List.cons.injEq,
      true_and]
    exact ih fun dc hdc => h dc (List.mem_cons_of_mem _ hdc)

/-- Inserting a name not yet present appends it. -/
theorem nameInsert_fresh (cs : List (List Char × StoredCookie))
    (n : List Char) (c : StoredCookie) (h : ∀ nc ∈ cs, nc.1 ≠ n) :
    nameInsert cs n c = cs ++ [(n, c)] := by
  induction cs with
  | nil => rfl
  | cons nc rest ih =>
    obtain ⟨n', c'⟩ := nc
    have h1 : n' ≠ n := h (n', c') (List.mem_cons_self _ _)
    simp only [nameInsert, h1, if_false, List.cons_append, List.cons.injEq,
      true_and]
    exact ih fun nc hnc => h nc (List.mem_cons_of_mem _ hnc)

/-- Folding the remaining entries of one domain extends that domain's
cookie object in place. -/
theorem foldl_entries_domain (d : List Char)
    (cs : List (List Char × StoredCookie)) (acc : CookieJar) :
    ∀ ps : List (List Char × StoredCookie),
    (∀ dc ∈ acc, dc.1 ≠ d) →
    (∀ nc ∈ cs, ∀ pc ∈ ps, pc.1 ≠ nc.1) →
    (cs.map Prod.fst).Nodup →
    (cs.map fun nc => ((d, nc.1, nc.2) :
        List Char × List Char × StoredCookie)).foldl
      (fun j e => jarInsert j e.1 e.2.1 (normalizeCookie e.2.2))
      (acc ++ [(d, ps)]) =
      acc ++ [(d, ps ++ cs.map fun nc => (nc.1, normalizeCookie nc.2))] := by
  induction cs with
  | nil =>
    intro ps _ _ _
    simp
  | cons nc rest ih =>
    intro ps haccd hdisj hnodup
    obtain ⟨n0, c0⟩ := nc
    simp only [List.map_cons, List.foldl_cons]
    rw [jarInsert_last acc d n0 ps (normalizeCookie c0) haccd]
    rw [nameInsert_fresh ps n0 _
      (fun pc hpc => hdisj (n0, c0) (List.mem_cons_self _ _) pc hpc)]
    rw [ih (ps ++ [(n0, normalizeCookie c0)]) haccd ?_ ?_]
    · simp
    · intro nc2 hnc2 pc hpc
      rcases List.mem_append.1 hpc with hin | hone
      · exact hdisj nc2 (List.mem_cons_of_mem _ hnc2) pc hin
      · simp at hone
        subst hone
        simp only [List.map_cons, List.nodup_cons] at hnodup
        intro he
        have he2 : n0 = nc2.1 := he
        apply hnodup.1
        rw [he2]
        exact List.mem_map_of_mem Prod.fst hnc2
    · simp only [List.map_cons, List.nodup_cons] at hnodup
      exact hnodup.2

/-- Folding all jar entries through `jarInsert` rebuilds the (normalized)
jar, appended to the accumulator. -/
theorem foldl_jarEntries (jar : CookieJar) :
    ∀ acc : CookieJar,
    (∀ dc ∈ jar, ∀ ac ∈ acc, ac.1 ≠ dc.1) →
    (jar.map Prod.fst).Nodup →
    (∀ dc ∈ jar, (dc.2.map Prod.fst).Nodup) →
    (∀ dc ∈ jar, dc.2 ≠ []) →
    (jarEntries jar).foldl
      (fun j e => jarInsert j e.1 e.2.1 (normalizeCookie e.2.2)) acc =
      acc ++ normalizeJar jar := by
  induction jar with
  | nil =>
    intro acc _ _ _ _
    simp [jarEntries, normalizeJar]
  | cons dc rest ih =>
    intro acc hdisj hnodupD hnodupN hne
    obtain ⟨d, cs⟩ := dc
    rw [show jarEntries ((d, cs) :: rest) =
        (cs.map fun nc => ((d, nc.1, nc.2) :
          List Char × List Char × StoredCookie)) ++ jarEntries rest from by
      simp [jarEntries]]
    rw [List.foldl_append]
    cases cs with
    | nil => exact absurd rfl (hne (d, []) (List.mem_cons_self _ _))
    | cons nc0 cs' =>
      obtain ⟨n0, c0⟩ := nc0
      simp only [List.map_cons, List.foldl_cons]
      rw [jarInsert_fresh acc d n0 (normalizeCookie c0)
        (fun ac hac => hdisj (d, (n0, c0) :: cs') (List.mem_cons_self _ _)
          ac hac)]
      have hnames := hnodupN (d, (n0, c0) :: cs') (List.mem_cons_self _ _)
      simp only [List.map_cons, List.nodup_cons] at hnames
      rw [foldl_entries_domain d cs' acc [(n0, normalizeCookie c0)]
        (fun ac hac => hdisj (d, (n0, c0) :: cs') (List.mem_cons_self _ _)
          ac hac)
        ?_ hnames.2]
      · simp only [List.singleton_append]
        rw [ih (acc ++ [(d, (n0, normalizeCookie c0) ::
            cs'.map fun nc => (nc.1, normalizeCookie nc.2))]) ?_ ?_ ?_ ?_]
        · simp [normalizeJar]
        · intro dc2 hdc2 ac hac
          rcases List.mem_append.1 hac with hin | hone
          · exact hdisj dc2 (List.mem_cons_of_mem _ hdc2) ac hin
          · simp at hone
            subst hone
            simp only [List.map_cons, List.nodup_cons] at hnodupD
            intro he
            have he2 : d = dc2.1 := he
            apply hnodupD.1
            rw [he2]
            exact List.mem_map_of_mem Prod.fst hdc2
        · simp only [List.map_cons, List.nodup_cons] at hnodupD
          exact hnodupD.2
        · exact fun dc2 hdc2 => hnodupN dc2 (List.mem_cons_of_mem _ hdc2)
        · exact fun dc2 hdc2 => hne dc2 (List.mem_cons_of_mem _ hdc2)
      · intro nc2 hnc2 pc hpc
        simp at hpc
        subst hpc
        intro he
        have he2 : n0 = nc2.1 := he
        apply hnames.1
        rw [he2]
        exact List.mem_map_of_mem Prod.fst hnc2

/-- The serialized file is the header followed by one line per entry. -/
theorem serializeCookies_eq_lines (jar : CookieJar) :
    serializeCookies jar = headerLine ++ '\n' ::
      (jarEntries jar).flatMap
        (fun e => cookieLine e.1 e.2.1 e.2.2 ++ ['\n']) := by
  simp [serializeCookies, jarEntries, List.flatMap_assoc, List.flatMap_map]

/-- Splitting the concatenated newline-terminated lines on newlines yields
the lines followed by one empty line. -/
theorem splitOn_flatMap_lines
    (es : List (List Char × List Char × StoredCookie))
    (hgood : ∀ e ∈ es, '\n' ∉ cookieLine e.1 e.2.1 e.2.2) :
    ((es.flatMap fun e => cookieLine e.1 e.2.1 e.2.2 ++ ['\n']).splitOn '\n')
      = (es.map fun e => cookieLine e.1 e.2.1 e.2.2) ++ [[]] := by
  induction es with
  | nil => simp
  | cons e rest ih =>
    simp only [List.flatMap_cons, List.map_cons, List.append_assoc,
      List.singleton_append, List.cons_append]
    rw [splitOn_append_cons _ _ _ (hgood e (List.mem_cons_self _ _))]
    simp only [List.nil_append]
    rw [ih fun e2 he2 => hgood e2 (List.mem_cons_of_mem _ he2)]

/-- Folding the parser over the serialized lines is folding `jarInsert`
over the normalized entries. -/
theorem foldl_parseLine_lines
    (es : List (List Char × List Char × StoredCookie))
    (hgood : ∀ e ∈ es, goodField e.1 ∧ startsWithHash e.1 = false ∧
      goodField e.2.1 ∧ goodField e.2.2.path ∧ goodField e.2.2.value ∧
      expFracDigits e.2.2.expiration) :
    ∀ acc : CookieJar,
    ((es.map fun e => cookieLine e.1 e.2.1 e.2.2).foldl parseLine acc)
      = es.foldl
        (fun j e => jarInsert j e.1 e.2.1 (normalizeCookie e.2.2)) acc := by
  induction es with
  | nil => intro acc; rfl
  | cons e rest ih =>
    intro acc
    obtain ⟨hd, hhash, hn, hp, hv, hexp⟩ := hgood e (List.mem_cons_self _ _)
    simp only [List.map_cons, List.foldl_cons]
    rw [parseLine_cookieLine acc e.1 e.2.1 e.2.2 hd hp hn hv hexp hhash]
    exact ih (fun e2 he2 => hgood e2 (List.mem_cons_of_mem _ he2)) _

/-- Every jar entry's fields satisfy the per-entry goodness facts. -/
theorem jarEntries_good (jar : CookieJar)
    (hgood : ∀ dc ∈ jar, goodField dc.1 ∧ startsWithHash dc.1 = false ∧
      ∀ nc ∈ dc.2, goodField nc.1 ∧ goodField nc.2.path ∧
        goodField nc.2.value ∧ expFracDigits nc.2.expiration) :
    ∀ e ∈ jarEntries jar, goodField e.1 ∧ startsWithHash e.1 = false ∧
      goodField e.2.1 ∧ goodField e.2.2.path ∧ goodField e.2.2.value ∧
      expFracDigits e.2.2.expiration := by
  intro e he
  rw [jarEntries, List.mem_flatMap] at he
  obtain ⟨dc, hdc, he2⟩ := he
  rw [List.mem_map] at he2
  obtain ⟨nc, hnc, rfl⟩ := he2
  obtain ⟨h1, h2, h3⟩ := hgood dc hdc
  obtain ⟨h4, h5, h6, h7⟩ := h3 nc hnc
  exact ⟨h1, h2, h4, h5, h6, h7⟩

/-! ## Helper lemmas -/

/-- A 500-class status is classified retryable by `shouldRetry`. -/
theorem shouldRetry_of_500 (s : Nat) (h : 500 ≤ s) :
    shouldRetry (.http s) = true := by
  simp only [shouldRetry, Bool.or_eq_true, decide_eq_true_eq]
  exact Or.inl (Or.inl (Or.inl h))

/-! ## Claim theorems: cookie store -/

/-- C3 (counterexample to the claim as stated): the serialize-then-parse
round trip is not lossless for the expiration.  An absent (session-scoped)
expiration is written as `0` and read back as the present expiration `0`;
and a fractional expiration — as the Max-Age path
`Date.now() / 1000 + parseInt(val)` stores — is written with its fraction
(`1712345678.901`) and truncated to `1712345678` by `parseInt` on load. -/
theorem save_load_expiration_not_lossless :
    (parseCookieFile (serializeCookies
      [("example.com".data,
        [("sid".data,
          { value := "abc".data, path := "/".data, secure := false,
            httpOnly := false, expiration := none })])]) =
      [("example.com".data,
        [("sid".data,
          { value := "abc".data, path := "/".data, secure := false,
            httpOnly := false,
            expiration := some { intPart := 0, frac := [] } })])] ∧
      (some { intPart := 0, frac := [] } : Option JsNum) ≠ none) ∧
    (parseCookieFile (serializeCookies
      [("example.com".data,
        [("sid".data,
          { value := "abc".data, path := "/".data, secure := false,
            httpOnly := false,
            expiration := some { intPart := 1712345678,
                                 frac := ['9', '0', '1'] } })])]) =
      [("example.com".data,
        [("sid".data,
          { value := "abc".data, path := "/".data, secure := false,
            httpOnly := false,
            expiration := some { intPart := 1712345678,
                                 frac := [] } })])] ∧
      (some { intPart := 1712345678, frac := [] } : Option JsNum) ≠
        some { intPart := 1712345678, frac := ['9', '0', '1'] }) := by
  refine ⟨⟨by decide, by decide⟩, by decide, by decide⟩

/-- C3 (amended): for every stored cookie set with distinct domains,
distinct names per domain, at least one cookie per stored domain, fields
free of tabs and newlines, expiration fractions made of decimal digits,
and domains not starting with `#`, `save()` followed by a fresh `load()`
reproduces every cookie's domain, name, value, path, secure and http-only
flags exactly, and reproduces the expiration truncated: the reloaded
expiration is the integer part of `expiration || 0`, so a present integral
expiration is reproduced exactly, while a fractional one loses its
fraction to `parseInt` and an absent one becomes `0`. -/
theorem save_load_roundtrip (jar : CookieJar)
    (hnodupD : (jar.map Prod.fst).Nodup)
    (hnodupN : ∀ dc ∈ jar, (dc.2.map Prod.fst).Nodup)
    (hne : ∀ dc ∈ jar, dc.2 ≠ [])
    (hgood : ∀ dc ∈ jar, goodField dc.1 ∧ startsWithHash dc.1 = false ∧
      ∀ nc ∈ dc.2, goodField nc.1 ∧ goodField nc.2.path ∧
        goodField nc.2.value ∧ expFracDigits nc.2.expiration) :
    parseCookieFile (serializeCookies jar) = normalizeJar jar ∧
    ∀ c : StoredCookie, ∀ v, c.expiration = some v → v.frac = [] →
      normalizeCookie c = c := by
  have hgoodE := jarEntries_good jar hgood
  constructor
  · rw [parseCookieFile, serializeCookies_eq_lines]
    rw [splitOn_append_cons '\n' headerLine _ (by decide)]
    rw [splitOn_flatMap_lines _ (fun e he => by
      obtain ⟨h1, h2, h3, h4, h5, h6⟩ := hgoodE e he
      exact cookieLine_no_newline _ _ _ h1 h4 h3 h5 h6)]
    simp only [List.foldl_cons, parseLine_headerLine]
    rw [List.foldl_append]
    simp only [List.foldl_cons, List.foldl_nil, parseLine_nil]
    rw [foldl_parseLine_lines _ hgoodE []]
    rw [foldl_jarEntries jar [] (by simp) hnodupD hnodupN hne]
    simp
  · intro c v hv hfr
    obtain ⟨val, p, sec, ho, exp⟩ := c
    obtain ⟨i, f⟩ := v
    simp only at hv hfr
    subst hv
    subst hfr
    by_cases hz : i = 0
    · subst hz
      simp [normalizeCookie, expirationOrZero, jsNumIsZero, jsZero]
    · simp [normalizeCookie, expirationOrZero, jsNumIsZero, hz]

/-- Witness for the amended C3 at a concrete one-cookie jar with a present
integral expiration. -/
theorem save_load_roundtrip_witness :
    parseCookieFile (serializeCookies
      [("example.com".data,
        [("sid".data,
          { value := "abc".data, path := "/".data, secure := true,
            httpOnly := false,
            expiration := some { intPart := 1712345678,
                                 frac := [] } })])]) =
    normalizeJar
      [("example.com".data,
        [("sid".data,
          { value := "abc".data, path := "/".data, secure := true,
            httpOnly := false,
            expiration := some { intPart := 1712345678,
                                 frac := [] } })])] :=
  (save_load_roundtrip _ (by decide) (by decide) (by decide) (by decide)).1

/-- C4 (counterexample to the claim as stated): a cookie with a non-empty
domain and expiration value `0` — an epoch strictly in the past at
`now = 5` — is still attached: the JS falsiness test `!c.expiration` treats
expiration `0` as session-scoped, not as expired. -/
theorem cookiesFor_expired_zero_included :
    getCookiesForUrl
        [("example.com".data,
          [("sid".data, { value := "v".data, path := "/".data,
                          secure := false, httpOnly := false,
                          expiration := some { intPart := 0,
                                               frac := [] } })])]
        "example.com".data "/".data 5 =
      ["sid=v".data] ∧
    (0 : Nat) < 5 ∧ "example.com".data ≠ [] := by
  refine ⟨by decide, by decide, by decide⟩

/-- C4 (amended): every `name=value` pair returned by `getCookiesForUrl`
comes from a stored cookie that passed the expiry check: a cookie whose
expiration is present with a nonzero value is attached only when that value
strictly exceeds the current time — in particular its whole-second part is
not strictly in the past.  Cookies with an absent or zero expiration are
treated as session-scoped and may be attached. -/
theorem cookiesFor_no_expired (jar : CookieJar) (host path : List Char)
    (now : Nat) (s : List Char)
    (hs : s ∈ getCookiesForUrl jar host path now) :
    ∃ dc ∈ jar, ∃ nc ∈ dc.2, s = nc.1 ++ '=' :: nc.2.value ∧
      expiryOk nc.2.expiration now = true ∧
      ∀ v, nc.2.expiration = some v → jsNumIsZero v = false →
        jsNumGtNat v now = true ∧ now ≤ v.intPart := by
  rw [getCookiesForUrl, List.mem_flatMap] at hs
  obtain ⟨dc, hdc, hmem⟩ := hs
  by_cases hdom : host = dc.1 ∨ ('.' :: dc.1).isSuffixOf host
  case neg =>
    rw [if_neg hdom] at hmem
    simp at hmem
  rw [if_pos hdom] at hmem
  rw [List.mem_filterMap] at hmem
  obtain ⟨nc, hnc, hval⟩ := hmem
  by_cases hok : expiryOk nc.2.expiration now = true ∧
      nc.2.path.isPrefixOf path = true
  case neg =>
    rw [if_neg ?_] at hval
    · simp at hval
    · intro hcontra
      exact hok ⟨hcontra.1, hcontra.2⟩
  rw [if_pos ⟨hok.1, hok.2⟩] at hval
  refine ⟨dc, hdc, nc, hnc, (Option.some.inj hval).symm, hok.1, ?_⟩
  intro v hv hz
  have h1 := hok.1
  rw [hv] at h1
  simp only [expiryOk, expiryFalsy, hz, Bool.false_or] at h1
  refine ⟨h1, ?_⟩
  have h2 := h1
  simp only [jsNumGtNat, Bool.or_eq_true, decide_eq_true_eq,
    Bool.and_eq_true] at h2
  rcases h2 with h2 | ⟨h2, _⟩ <;> omega

/-- Witness for the amended C4 at a concrete jar with one unexpired
cookie. -/
theorem cookiesFor_no_expired_witness :
    ∃ dc ∈ ([("example.com".data,
        [("a".data, { value := "v".data, path := "/".data, secure := false,
                      httpOnly := false,
                      expiration := some { intPart := 100,
                                           frac := [] } })])] :
        CookieJar),
      ∃ nc ∈ dc.2, "a=v".data = nc.1 ++ '=' :: nc.2.value ∧
        expiryOk nc.2.expiration 50 = true ∧
        ∀ v, nc.2.expiration = some v → jsNumIsZero v = false →
          jsNumGtNat v 50 = true ∧ 50 ≤ v.intPart :=
  cookiesFor_no_expired _ "example.com".data "/".data 50 "a=v".data
    (by decide)

/-! ## Claim theorems: streaming client -/

/-- C7: a malformed inbound frame (unparseable body, modelled as the `none`
frame since the `JSON.parse` exception is caught inside `_handleMessage`)
does not raise to the caller — `_handleMessage` is total and returns — and
leaves the state, in particular the Subscription Set, unchanged, emitting no
event. -/
theorem handleMessage_malformed_no_change (s : WsState) :
    _handleMessage s none = (s, []) := rfl

/-- C10: a well-formed frame whose `price` field is present but `0` and that
carries no `error` field is silently ignored: no price event and no error
event are emitted, and the state is unchanged. -/
theorem handleMessage_zero_price_ignored (s : WsState)
    (sym : Option String) (ch chp vol mc : Option Int) :
    _handleMessage s (some
      { symbol := sym, price := some 0, change := ch, changePercent := chp,
        volume := vol, marketCap := mc, error := none }) = (s, []) := by
  simp [_handleMessage, numTruthy, strTruthy]

/-- C6: when `reconnectAttempts` is already at least the configured
`maxReconnectAttempts`, `_scheduleReconnect` schedules no timer, leaves the
state (including the attempt counter) unchanged, and emits an error event. -/
theorem scheduleReconnect_at_cap (opts : WebSocketOptions) (s : WsState)
    (h : opts.maxReconnectAttempts ≤ s.reconnectAttempts) :
    _scheduleReconnect opts s =
      { state := s, events := [.error "Max reconnect attempts reached"],
        scheduledDelay := none } := by
  simp [_scheduleReconnect, h]

/-- Witness for C6 at a concrete state already at the cap. -/
theorem scheduleReconnect_at_cap_witness :
    _scheduleReconnect
        { autoReconnect := true, reconnectInterval := 5000,
          maxReconnectAttempts := 10, heartbeatInterval := 30000 }
        { isConnected := false, reconnectAttempts := 10,
          subscribedSymbols := [], reconnectTimerSet := false } =
      { state := { isConnected := false, reconnectAttempts := 10,
                   subscribedSymbols := [], reconnectTimerSet := false },
        events := [.error "Max reconnect attempts reached"],
        scheduledDelay := none } :=
  scheduleReconnect_at_cap _ _ (by decide)

/-- C8: on a connected client, `subscribe` is idempotent and duplicate-free
per symbol: from an empty Subscription Set, `subscribe ['AAPL','AAPL']`
sends exactly one subscribe message and `getSubscribedSymbols` yields
exactly `['AAPL']`; and a symbol already in the set is never re-sent
(no message, state unchanged). -/
theorem subscribe_idempotent (s : WsState) (hc : s.isConnected = true) :
    (s.subscribedSymbols = [] →
      subscribe s ["AAPL", "AAPL"] =
        .ok ({ s with subscribedSymbols := ["AAPL"] },
             [.subscribeMsg ["AAPL"]]) ∧
      getSubscribedSymbols { s with subscribedSymbols := ["AAPL"] } =
        ["AAPL"]) ∧
    (∀ sym, sym ∈ s.subscribedSymbols → subscribe s [sym] = .ok (s, [])) := by
  constructor
  · intro hempty
    refine ⟨?_, rfl⟩
    simp [subscribe, hc, subscribeLoop, hempty, getSubscribedSymbols]
  · intro sym hmem
    simp [subscribe, hc, subscribeLoop, hmem]

/-- Witness for C8 at a concrete connected client: the duplicate subscribe
from the empty set, and the no-resend of an already subscribed symbol. -/
theorem subscribe_idempotent_witness :
    (subscribe
        { isConnected := true, reconnectAttempts := 0,
          subscribedSymbols := [], reconnectTimerSet := false }
        ["AAPL", "AAPL"] =
      .ok ({ isConnected := true, reconnectAttempts := 0,
             subscribedSymbols := ["AAPL"], reconnectTimerSet := false },
           [.subscribeMsg ["AAPL"]])) ∧
    (subscribe
        { isConnected := true, reconnectAttempts := 0,
          subscribedSymbols := ["AAPL"], reconnectTimerSet := false }
        ["AAPL"] =
      .ok ({ isConnected := true, reconnectAttempts := 0,
             subscribedSymbols := ["AAPL"], reconnectTimerSet := false },
           [])) := by
  constructor
  · exact ((subscribe_idempotent _ rfl).1 rfl).1
  · exact (subscribe_idempotent _ rfl).2 "AAPL" (by decide)

/-! ## Claim theorems: transport retry loop -/

/-- C5: a request to a non-authenticated path whose first attempt fails with
HTTP 404 makes exactly one attempt and fails immediately with that error —
no retry and no backoff delay. -/
theorem makeRequest_404_terminal (cfg : TransportConfig)
    (host pathname : List Char)
    (outcome : Nat → Except ReqError Response)
    (hna : isYahooFinanceApiRequest host pathname = false)
    (h0 : outcome 0 = .error (.http 404)) :
    makeRequest cfg host pathname outcome = (.failure (.http 404), 1, []) := by
  simp [makeRequest, makeRequestAux, hna, h0, shouldRetry]

/-- Witness for C5 at a concrete non-auth URL and a 404-failing attempt. -/
theorem makeRequest_404_terminal_witness :
    makeRequest { retries := 3, retryDelay := 1000 }
        "example.com".data "/foo".data (fun _ => .error (.http 404)) =
      (.failure (.http 404), 1, []) :=
  makeRequest_404_terminal _ _ _ _ (by decide) rfl

/-- C1 (counterexample to the claim as stated): with `retries = 3` and every
attempt failing with status 500, `makeRequest` makes 4 attempts but its
final failure is the rethrown last underlying error, not the
`Max retries exceeded` condition (that throw, http.ts:612, is unreachable). -/
theorem makeRequest_500_not_maxRetries :
    (makeRequest { retries := 3, retryDelay := 1000 }
        "example.com".data "/foo".data (fun _ => .error (.http 500))).2.1 = 4 ∧
    (makeRequest { retries := 3, retryDelay := 1000 }
        "example.com".data "/foo".data (fun _ => .error (.http 500))).1 =
      .failure (.http 500) ∧
    TransportOutcome.failure (.http 500) ≠ .maxRetriesExceeded := by
  refine ⟨?_, ?_, by decide⟩ <;>
    simp [makeRequest, makeRequestAux, isYahooFinanceApiRequest, shouldRetry]

/-- C1 (amended): with `retries = 3` and a 500-class status on every
attempt, `makeRequest` makes exactly 4 attempts (1 initial + 3 retries) and
then fails with the last underlying error — rethrowing the status-500-class
error of the fourth attempt — rather than with the `MaxRetriesExceeded`
condition. -/
theorem makeRequest_500_four_attempts (cfg : TransportConfig)
    (host pathname : List Char)
    (outcome : Nat → Except ReqError Response)
    (hr : cfg.retries = 3)
    (hfail : ∀ i, ∃ st, 500 ≤ st ∧ outcome i = .error (.http st)) :
    (makeRequest cfg host pathname outcome).2.1 = 4 ∧
    ∃ st, 500 ≤ st ∧ outcome 3 = .error (.http st) ∧
      (makeRequest cfg host pathname outcome).1 = .failure (.http st) := by
  obtain ⟨s0, b0, h0⟩ := hfail 0
  obtain ⟨s1, b1, h1⟩ := hfail 1
  obtain ⟨s2, b2, h2⟩ := hfail 2
  obtain ⟨s3, b3, h3⟩ := hfail 3
  have e0 := shouldRetry_of_500 s0 b0
  have e1 := shouldRetry_of_500 s1 b1
  have e2 := shouldRetry_of_500 s2 b2
  refine ⟨?_, s3, b3, h3, ?_⟩ <;>
  · cases hA : isYahooFinanceApiRequest host pathname <;>
      simp [makeRequest, makeRequestAux, hA, hr, h0, h1, h2, h3, e0, e1, e2]

/-- Witness for the amended C1 at a concrete always-500 request. -/
theorem makeRequest_500_four_attempts_witness :
    (makeRequest { retries := 3, retryDelay := 1000 }
        "example.com".data "/foo".data (fun _ => .error (.http 500))).2.1 = 4 ∧
    ∃ st, 500 ≤ st ∧
      (fun (_ : Nat) => (.error (.http 500) : Except ReqError Response)) 3 =
        .error (.http st) ∧
      (makeRequest { retries := 3, retryDelay := 1000 }
          "example.com".data "/foo".data
          (fun _ => .error (.http 500))).1 = .failure (.http st) :=
  makeRequest_500_four_attempts _ _ _ _ rfl
    (fun _ => ⟨500, by decide, rfl⟩)

/-- Truthiness of an absent crumb. -/
theorem crumbTruthy_none : crumbTruthy none = false := rfl

/-- Truthiness of a present crumb string. -/
theorem crumbTruthy_some (c : String) :
    crumbTruthy (some c) = !decide (c = "") := rfl

/-! ## Claim theorems: authentication engine -/

/-- C2: `getCrumb` returns a cached (truthy) crumb unchanged; otherwise it
runs the active strategy; when that strategy fails it switches to the other
strategy — the state the other strategy is retried on has the cached crumb
cleared and the cookie store emptied — and retries the other strategy
exactly once (the attempted-strategies trace is
`[active, other]`); when both strategies fail it returns the empty crumb.
`getCrumb` is a total function: every internal failure is caught, so it
never raises to the caller. -/
theorem getCrumb_strategy_fallback
    (run : CookieStrategy → AuthState → Option String × AuthState)
    (st : AuthState) :
    (crumbTruthy st.crumb = true →
      getCrumb run st = (st.crumb.getD "", st, [])) ∧
    (crumbTruthy st.crumb = false →
      (∀ c st1, run st.cookieStrategy st = (some c, st1) →
        (getCrumb run st).2.2 = [st.cookieStrategy]) ∧
      (∀ st1, run st.cookieStrategy st = (none, st1) →
        st1.cookieStrategy = st.cookieStrategy →
        (getCrumb run st).2.2 =
          [st.cookieStrategy, otherStrategy st.cookieStrategy] ∧
        (_setCookieStrategy (otherStrategy st.cookieStrategy) st1).crumb =
          none ∧
        (_setCookieStrategy (otherStrategy st.cookieStrategy) st1).cookieJar =
          [] ∧
        (∀ c2 st3,
          run (otherStrategy st.cookieStrategy)
              (_setCookieStrategy (otherStrategy st.cookieStrategy) st1) =
            (c2, st3) →
          (c2 = none → (getCrumb run st).1 = "") ∧
          (∀ cs, c2 = some cs → cs ≠ "" → (getCrumb run st).1 = cs)))) := by
  constructor
  · intro h
    simp [getCrumb, h]
  · intro h
    constructor
    · intro c st1 hrun
      cases hs : st.cookieStrategy <;> rw [hs] at hrun <;>
        simp [getCrumb, h, _getCookieAndCrumb, hs, hrun] <;>
        split <;> rfl
    · intro st1 hrun heq
      cases hs : st.cookieStrategy <;> rw [hs] at hrun <;> rw [hs] at heq
      case basic =>
        have hst2 : _setCookieStrategy (otherStrategy CookieStrategy.basic)
            st1 =
            { crumb := none, cookieStrategy := .csrf, cookieJar := [] } := by
          simp [otherStrategy, _setCookieStrategy, heq]
        refine ⟨?_, ?_, ?_, ?_⟩
        · simp [getCrumb, h, _getCookieAndCrumb, hs, hrun, otherStrategy,
            _setCookieStrategy, heq]
          split <;> rfl
        · rw [hst2]
        · rw [hst2]
        · intro c2 st3 hrun2
          rw [hst2] at hrun2
          constructor
          · intro hc2; rw [hc2] at hrun2
            simp only [otherStrategy] at hrun2
            simp [getCrumb, h, _getCookieAndCrumb, hs, hrun,
              _setCookieStrategy, heq, otherStrategy, hrun2, crumbTruthy_none]
          · intro cs hc2 hcs; rw [hc2] at hrun2
            simp only [otherStrategy] at hrun2
            simp [getCrumb, h, _getCookieAndCrumb, hs, hrun,
              _setCookieStrategy, heq, otherStrategy, hrun2,
              crumbTruthy_some, hcs]
      case csrf =>
        have hst2 : _setCookieStrategy (otherStrategy CookieStrategy.csrf)
            st1 =
            { crumb := none, cookieStrategy := .basic, cookieJar := [] } := by
          simp [otherStrategy, _setCookieStrategy, heq]
        refine ⟨?_, ?_, ?_, ?_⟩
        · simp [getCrumb, h, _getCookieAndCrumb, hs, hrun, otherStrategy,
            _setCookieStrategy, heq]
          split <;> rfl
        · rw [hst2]
        · rw [hst2]
        · intro c2 st3 hrun2
          rw [hst2] at hrun2
          constructor
          · intro hc2; rw [hc2] at hrun2
            simp only [otherStrategy] at hrun2
            simp [getCrumb, h, _getCookieAndCrumb, hs, hrun,
              _setCookieStrategy, heq, otherStrategy, hrun2, crumbTruthy_none]
          · intro cs hc2 hcs; rw [hc2] at hrun2
            simp only [otherStrategy] at hrun2
            simp [getCrumb, h, _getCookieAndCrumb, hs, hrun,
              _setCookieStrategy, heq, otherStrategy, hrun2,
              crumbTruthy_some, hcs]

/-- Witness for C2 at a concrete state with both strategies failing: the
engine tries basic then csrf and returns the empty crumb. -/
theorem getCrumb_strategy_fallback_witness :
    (getCrumb (fun _ st => (none, st))
        { crumb := none, cookieStrategy := .basic, cookieJar := [] }).2.2 =
      [.basic, .csrf] ∧
    (getCrumb (fun _ st => (none, st))
        { crumb := none, cookieStrategy := .basic, cookieJar := [] }).1 =
      "" := by
  have h := ((getCrumb_strategy_fallback (fun _ st => (none, st))
      { crumb := none, cookieStrategy := .basic, cookieJar := [] }).2
    rfl).2 { crumb := none, cookieStrategy := .basic, cookieJar := [] }
    rfl rfl
  exact ⟨h.1, ((h.2.2.2 none _ rfl).1) rfl⟩

/-! ## Claim theorems: body decoding -/

/-- C9: `getJson` fails with the decode-error condition exactly when the
response body is not well-formed (the parser rejects it), and returns the
parsed value on a well-formed body. -/
theorem getJson_decode (parse : String → Option Nat) (r : Response) :
    (parse (getText r) = none →
      getJson parse r = .error .decodeError) ∧
    (∀ v, parse (getText r) = some v → getJson parse r = .ok v) := by
  constructor
  · intro h; simp [getJson, h]
  · intro v h; simp [getJson, h]

/-- Witness for C9: a concrete parser rejecting a concrete body, and
accepting another. -/
theorem getJson_decode_witness :
    getJson (fun s => if s = "42" then some 42 else none)
        { status := 200, dataRaw := some "nope" } =
      .error .decodeError ∧
    getJson (fun s => if s = "42" then some 42 else none)
        { status := 200, dataRaw := some "42" } = .ok 42 := by
  constructor
  · exact (getJson_decode _ _).1 (by decide)
  · exact (getJson_decode _ _).2 42 (by decide)

end YfinTs
